import Mathlib

/-!
Verification of the gesture-driven choreography engine of the EG-Christmas
repository. The TypeScript source is embedded shallowly over the rationals:
JavaScript numbers become `ℚ`, the irrational library functions
(`Math.cos`, `Math.sin`, `Math.sqrt`, `Math.acos`, `Math.PI`) become fields
of an ambient `MathFns` parameter, and each call to `Math.random()` reads
the next element of an explicit stream `ρ : ℕ → ℚ` at a cursor that is
threaded through the computation. Fallible code (the typed-array allocation
in the shape generator) returns `Except`.
-/

namespace EGC

/-- The ambient real-valued library functions used by the source
(`Math.cos`, `Math.sin`, `Math.sqrt`, `Math.acos`, `Math.PI`). They are
kept abstract: the theorems below hold for every interpretation, and
executable witnesses instantiate them with concrete rational functions. -/
structure MathFns where
  cos : ℚ → ℚ
  sin : ℚ → ℚ
  sqrt : ℚ → ℚ
  acos : ℚ → ℚ
  pi : ℚ

/-- A 3D point, as written into the `Float32Array` triples or a
`THREE.Vector3` by the source. -/
structure Point where
  x : ℚ
  y : ℚ
  z : ℚ
deriving DecidableEq, Inhabited, Repr

/-- `src/types.ts` `AppMode`. -/
inductive AppMode
  | SCATTER
  | FEATURE
  | FOCUS
deriving DecidableEq, Repr

/-- `src/types.ts` `FeatureShape`. -/
inductive FeatureShape
  | TREE
  | SANTA
  | SOCK
  | ELK
deriving DecidableEq, Repr

/-- `src/types.ts` `HandState`: the normalized signal published by the
hand controller on every inference tick. -/
structure HandState where
  x : ℚ
  y : ℚ
  pinchX : ℚ
  pinchY : ℚ
  isPinching : Bool
  gesture : String
  active : Bool
deriving DecidableEq, Repr

/-- `src/types.ts` `PhotoData` (the `THREE.Vector3` fields become points). -/
structure PhotoData where
  id : String
  url : String
  position : Point
  rotation : Point
deriving DecidableEq, Inhabited, Repr

/-! ## Shape Field Generator (`src/utils/geometry.ts`, inlined after `src/App.tsx`)

Every `Math.random()` call reads `ρ n` and advances the cursor `n` by one;
the draw order matches the JavaScript evaluation order exactly. -/

/-- `getRandomPosition` of the geometry utilities. -/
def getRandomPosition (ρ : ℕ → ℚ) (scale : ℚ) (n : ℕ) : Point × ℕ :=
  (⟨(ρ n - 0.5) * scale,
    (ρ (n + 1) - 0.5) * scale,
    (ρ (n + 2) - 0.5) * scale⟩, n + 3)

/-- `getPointInBox`: a uniform point in an axis-aligned box. -/
def getPointInBox (ρ : ℕ → ℚ) (center size : Point) (n : ℕ) : Point × ℕ :=
  (⟨center.x + (ρ n - 0.5) * size.x,
    center.y + (ρ (n + 1) - 0.5) * size.y,
    center.z + (ρ (n + 2) - 0.5) * size.z⟩, n + 3)

/-- `getPointInCylinder`: a point in a cylinder, vertical or along Z. -/
def getPointInCylinder (M : MathFns) (ρ : ℕ → ℚ) (center : Point)
    (height radius : ℚ) (vertical : Bool) (n : ℕ) : Point × ℕ :=
  let theta := ρ n * 2 * M.pi
  let r := M.sqrt (ρ (n + 1)) * radius
  if vertical then
    (⟨center.x + r * M.cos theta,
      center.y + (ρ (n + 2) - 0.5) * height,
      center.z + r * M.sin theta⟩, n + 3)
  else
    (⟨center.x + r * M.cos theta,
      center.y + r * M.sin theta,
      center.z + (ρ (n + 2) - 0.5) * height⟩, n + 3)

/-- One iteration of the loop body of `getShapePositions` for index `i`:
the `switch (shape)` statement producing one 3D point. -/
def shapePoint (M : MathFns) (ρ : ℕ → ℚ) (count : ℕ) (shape : FeatureShape)
    (spread : ℚ) (i : ℕ) (n : ℕ) : Point × ℕ :=
  match shape with
  | .TREE =>
    let t : ℚ := (i : ℚ) / (count : ℚ)
    let tMod := t
    let spiralLoops : ℚ := 8
    let height := -6 + tMod * 12
    let maxRadius : ℚ := 5.0
    let coneRadius := maxRadius * (1 - tMod)
    let radius := max 0.1 coneRadius
    let angle := tMod * M.pi * 2 * spiralLoops
    let thickness := spread * (2.0 * (1 - tMod) + 0.5)
    let rOffset := (ρ n - 0.5) * thickness
    let hOffset := (ρ (n + 1) - 0.5) * thickness
    let aOffset := (ρ (n + 2) - 0.5) * (spread * 0.5)
    (⟨(radius + rOffset) * M.cos (angle + aOffset),
      height + hOffset,
      (radius + rOffset) * M.sin (angle + aOffset)⟩, n + 3)
  | .SOCK =>
    let tSock := ρ n
    let thicknessSock := 1.2 * spread
    if tSock < 0.6 then
      (⟨(ρ (n + 1) - 0.5) * thicknessSock,
        ρ (n + 2) * 6 - 1,
        (ρ (n + 3) - 0.5) * thicknessSock⟩, n + 4)
    else
      (⟨ρ (n + 1) * 3.5 + 0.5,
        -2 + (ρ (n + 2) - 0.5) * thicknessSock,
        (ρ (n + 3) - 0.5) * thicknessSock⟩, n + 4)
  | .ELK =>
    let part := ρ n
    let elkSpread := spread * 0.6
    if part < 0.4 then
      let (b, n1) := getPointInBox ρ ⟨0, 0, 0⟩ ⟨2.5, 3, 4.5⟩ (n + 1)
      (⟨b.x + (ρ n1 - 0.5) * elkSpread,
        b.y + (ρ (n1 + 1) - 0.5) * elkSpread,
        b.z + (ρ (n1 + 2) - 0.5) * elkSpread⟩, n1 + 3)
    else if part < 0.6 then
      let legIdx := (⌊ρ (n + 1) * 4⌋).toNat
      let xSign : ℚ := if legIdx % 2 = 0 then 1 else -1
      let zSign : ℚ := if legIdx < 2 then 1 else -1
      getPointInCylinder M ρ ⟨xSign * 1.2, -3, zSign * 1.8⟩ 3.5
        (0.4 + elkSpread * 0.2) true (n + 2)
    else if part < 0.75 then
      if ρ (n + 1) > 0.4 then
        let nt := ρ (n + 2)
        (⟨(ρ (n + 3) - 0.5) * elkSpread,
          1.5 + nt * 2.5,
          2.2 + nt * 1.5⟩, n + 4)
      else
        getPointInBox ρ ⟨0, 4.5, 4.5⟩ ⟨1.2, 1.5, 2.5⟩ (n + 2)
    else
      let side : ℚ := if ρ (n + 1) > 0.5 then 1 else -1
      let at_ := ρ (n + 2)
      let ax := side * (0.5 + at_ * 2.5)
      let ay := 5.5 + at_ * 3 + M.sin (at_ * 10) * 0.5
      let az := 4.0 - at_ * 1.5
      (⟨ax + (ρ (n + 3) - 0.5) * 0.3,
        ay + (ρ (n + 4) - 0.5) * 0.3,
        az + (ρ (n + 5) - 0.5) * 0.3⟩, n + 6)
  | .SANTA =>
    let sPart := ρ n
    if sPart < 0.25 then
      let h := ρ (n + 1)
      let hatR := 1.5 * (1 - h)
      let hatAngle := ρ (n + 2) * M.pi * 2
      let localX := hatR * M.cos hatAngle
      let localY := h * 3
      let localZ := hatR * M.sin hatAngle
      let vx := localX
      let vy := localY + 3.8
      let vz := localZ - 0.5
      let rotZ : ℚ := -0.2
      (⟨vx,
        vy * M.cos rotZ - vz * M.sin rotZ,
        vy * M.sin rotZ + vz * M.cos rotZ⟩, n + 3)
    else if sPart < 0.45 then
      let u := ρ (n + 1)
      let v := ρ (n + 2)
      let theta := 2 * M.pi * u
      let phi := M.acos (2 * v - 1)
      let r : ℚ := 1.6
      (⟨r * M.sin phi * M.cos theta,
        r * M.sin phi * M.sin theta + 2.5,
        r * M.cos phi + 0.5⟩, n + 3)
    else if sPart < 0.6 then
      getPointInBox ρ ⟨0, 1.2, 1.2⟩ ⟨2.5, 2.0, 1.5⟩ (n + 1)
    else
      let u := ρ (n + 1)
      let v := ρ (n + 2)
      let theta := 2 * M.pi * u
      let phi := M.acos (2 * v - 1)
      let r : ℚ := 3.5
      (⟨r * M.sin phi * M.cos theta,
        r * M.sin phi * M.sin theta - 1.5,
        r * M.cos phi⟩, n + 3)

/-- The `for` loop of `getShapePositions`, run over a list of indices,
threading the random cursor. -/
def shapePointsFrom (M : MathFns) (ρ : ℕ → ℚ) (count : ℕ)
    (shape : FeatureShape) (spread : ℚ) : List ℕ → ℕ → List Point × ℕ
  | [], n => ([], n)
  | i :: is, n =>
    let pn := shapePoint M ρ count shape spread i n
    let rest := shapePointsFrom M ρ count shape spread is pn.2
    (pn.1 :: rest.1, rest.2)

/-- `getShapePositions (count, shape, spread)` of `src/App.tsx`. The JS
function first allocates `new Float32Array(count * 3)`, which throws a
`RangeError` for a negative length; otherwise the loop writes all
`count` points. -/
def getShapePositions (M : MathFns) (ρ : ℕ → ℚ) (count : ℤ)
    (shape : FeatureShape) (spread : ℚ) (n : ℕ) : Except String (List Point) :=
  if count < 0 then
    .error "RangeError: invalid typed array length"
  else
    .ok (shapePointsFrom M ρ count.toNat shape spread (List.range count.toNat) n).1

/-- The non-TREE fallback loop of `getPhotoSlotsForShape`: one random
orbit position per slot. -/
def orbitSlots (ρ : ℕ → ℚ) : ℕ → ℕ → List Point × ℕ
  | 0, n => ([], n)
  | k + 1, n =>
    let pn := getRandomPosition ρ 8 n
    let rest := orbitSlots ρ k pn.2
    (pn.1 :: rest.1, rest.2)

/-- `getPhotoSlotsForShape (count, shape)` of `src/App.tsx`: hanging spots
for photos. The TREE branch walks the helix deterministically; the other
shapes fall back to `getRandomPosition(8)` per slot. -/
def getPhotoSlotsForShape (M : MathFns) (ρ : ℕ → ℚ) (count : ℕ)
    (shape : FeatureShape) (n : ℕ) : List Point × ℕ :=
  if shape = .TREE then
    ((List.range count).map (fun i =>
      let t := 0.2 + ((i : ℚ) / (count : ℚ)) * 0.7
      let spiralLoops : ℚ := 8
      let height := -6 + t * 12
      let maxRadius : ℚ := 5.0
      let radius := maxRadius * (1 - t) + 0.8
      let angle := t * M.pi * 2 * spiralLoops + (i : ℚ) * M.pi / 2
      (⟨radius * M.cos angle, height, radius * M.sin angle⟩ : Point)), n)
  else
    orbitSlots ρ count n

/-! ## Gesture Signal Processor (`src/components/HandController.tsx`) -/

/-- `PINCH_THRESHOLD_FRAMES = 5`: sustain the pinch for 5 frames. -/
def PINCH_THRESHOLD_FRAMES : ℤ := 5

/-- A normalized hand landmark (only `x` and `y` are read by the source). -/
structure Landmark where
  x : ℚ
  y : ℚ
deriving DecidableEq, Inhabited, Repr

/-- The result of `recognizeForVideo`. `gestures` holds the top category
name per detected hand (the source reads `results.gestures[0][0].categoryName`);
`landmarks` holds one 21-point list per detected hand. -/
structure RecognizerResult where
  gestures : List String
  landmarks : List (List Landmark)
deriving DecidableEq, Repr

/-- Outcome of one throttled inference call: `recognizeForVideo` either
returns a result or throws (the catch block swallows the error and
publishes nothing). -/
inductive InferOutcome
  | ok (res : RecognizerResult)
  | err
deriving DecidableEq, Repr

/-- The neutral/inactive signal `{x:0, y:0, pinchX:0, pinchY:0,
isPinching:false, gesture:"None", active:false}`. -/
def neutralHandState : HandState :=
  { x := 0, y := 0, pinchX := 0, pinchY := 0,
    isPinching := false, gesture := "None", active := false }

/-- `getDistance`: Euclidean distance between two landmarks. -/
def getDistance (M : MathFns) (p1 p2 : Landmark) : ℚ :=
  M.sqrt ((p1.x - p2.x) ^ 2 + (p1.y - p2.y) ^ 2)

/-- The qualifying-frame test of `predict` (condition D): thumb and index
tips close together and the middle, ring and pinky fingers curled. -/
def pinchFrameCondition (M : MathFns) (res : RecognizerResult) : Bool :=
  let landmarks := res.landmarks.getD 0 []
  let wrist := landmarks.getD 0 default
  let thumbTip := landmarks.getD 4 default
  let indexTip := landmarks.getD 8 default
  let middleTip := landmarks.getD 12 default
  let middleMCP := landmarks.getD 9 default
  let ringTip := landmarks.getD 16 default
  let ringMCP := landmarks.getD 13 default
  let pinkyTip := landmarks.getD 20 default
  let pinkyMCP := landmarks.getD 17 default
  let tipDistance := getDistance M thumbTip indexTip
  let isMiddleCurled := getDistance M middleTip wrist < getDistance M middleMCP wrist * 1.2
  let isRingCurled := getDistance M ringTip wrist < getDistance M ringMCP wrist * 1.2
  let isPinkyCurled := getDistance M pinkyTip wrist < getDistance M pinkyMCP wrist * 1.2
  decide (tipDistance < 0.08 ∧ isMiddleCurled ∧ isRingCurled ∧ isPinkyCurled)

/-- A hand was detected this tick: `results.gestures.length > 0 &&
results.landmarks.length > 0`. -/
def handDetected (res : RecognizerResult) : Prop :=
  0 < res.gestures.length ∧ 0 < res.landmarks.length

instance (res : RecognizerResult) : Decidable (handDetected res) :=
  inferInstanceAs (Decidable (_ ∧ _))

/-- One throttled tick of `predict` (lines 170 to 235 of
`HandController.tsx`): from the current `pinchFrameCount` and the
inference outcome, the new counter and the published signal (`none` when
the inference call threw, in which case nothing is published and the
previously published values remain in force). -/
def predictStep (M : MathFns) (pinchFrameCount : ℤ) (o : InferOutcome) :
    ℤ × Option HandState :=
  match o with
  | .err => (pinchFrameCount, none)
  | .ok res =>
    if handDetected res then
      let landmarks := res.landmarks.getD 0 []
      let wrist := landmarks.getD 0 default
      let x := (wrist.x - 0.5) * (-2)
      let y := (wrist.y - 0.5) * (-2)
      let gesture := res.gestures.getD 0 "None"
      let thumbTip := landmarks.getD 4 default
      let indexTip := landmarks.getD 8 default
      let pinchX := ((thumbTip.x + indexTip.x) / 2 - 0.5) * (-2)
      let pinchY := ((thumbTip.y + indexTip.y) / 2 - 0.5) * (-2)
      let c1 := if pinchFrameCondition M res then pinchFrameCount + 1
                else max 0 (pinchFrameCount - 2)
      if PINCH_THRESHOLD_FRAMES ≤ c1 then
        (PINCH_THRESHOLD_FRAMES + 2,
         some { x := x, y := y, pinchX := pinchX, pinchY := pinchY,
                isPinching := true, gesture := "Pinch", active := true })
      else
        (c1,
         some { x := x, y := y, pinchX := pinchX, pinchY := pinchY,
                isPinching := false, gesture := gesture, active := true })
    else
      (0, some neutralHandState)

/-- A sequence of throttled inference ticks: final counter and the list of
published signals, in order. -/
def predictRun (M : MathFns) : ℤ → List InferOutcome → ℤ × List HandState
  | c, [] => (c, [])
  | c, o :: os =>
    let step := predictStep M c o
    let rest := predictRun M step.1 os
    (rest.1,
     match step.2 with
     | some s => s :: rest.2
     | none => rest.2)

/-- A fully qualifying frame: a hand is detected and the pinch condition
holds. -/
def qualifyingFrame (M : MathFns) (res : RecognizerResult) : Prop :=
  handDetected res ∧ pinchFrameCondition M res = true

/-- The disabled branch of the `[loaded, enabled]` effect in
`HandController.tsx` (lines 105 to 116): the video stream and the
animation-frame loop are stopped and the neutral signal is published once.
The `pinchFrameCount` ref is not touched by this branch; the returned pair
is the counter after the branch and the list of signals it publishes. -/
def disabledBranch (pinchFrameCount : ℤ) : ℤ × List HandState :=
  (pinchFrameCount, [neutralHandState])

/-! ## Mode Controller (`src/App.tsx` `handleHandUpdate`) -/

/-- The mode-relevant React state of `App`: the display mode and the
latched focus target. -/
structure ModeState where
  mode : AppMode
  focusId : Option String
deriving DecidableEq, Repr

/-- `handleHandUpdate` of `src/App.tsx` (lines 82 to 108), restricted to
its effect on `mode` and `focusId`. `rand` is the value drawn by
`Math.random()` for the focus pick; the pinch guard compares against the
closure value of `mode` (the pre-call state), exactly as the source does. -/
def handleHandUpdate (handControlEnabled : Bool) (photos : List PhotoData)
    (rand : ℚ) (st : ModeState) (state : HandState) : ModeState :=
  if !handControlEnabled then st
  else
    let st1 :=
      if state.gesture = "Closed_Fist" then
        { mode := if st.mode ≠ AppMode.FEATURE then AppMode.FEATURE else st.mode,
          focusId := none }
      else if state.gesture = "Open_Palm" then
        { mode := if st.mode ≠ AppMode.SCATTER then AppMode.SCATTER else st.mode,
          focusId := none }
      else st
    if state.isPinching then
      if st.mode ≠ AppMode.FOCUS ∧ 0 < photos.length then
        let randomId := (photos.getD (⌊rand * (photos.length : ℚ)⌋).toNat default).id
        { mode := AppMode.FOCUS, focusId := some randomId }
      else st1
    else st1

/-! ## Particle Choreographer smoothing
(`MagicParticles` and `StructureOrnaments` frame loops) -/

/-- The per-axis smoothing step `positions[k] += (target - positions[k]) *
lerpFactor` shared by `MagicParticles` (lines 93 to 95) and
`StructureOrnaments` (lines 246 to 248). -/
def lerpStep (lerpFactor target pos : ℚ) : ℚ :=
  pos + (target - pos) * lerpFactor

/-- `n` repeated applications of the smoothing step with a fixed target. -/
def lerpIter (lerpFactor target pos : ℚ) : ℕ → ℚ
  | 0 => pos
  | k + 1 => lerpStep lerpFactor target (lerpIter lerpFactor target pos k)

/-! ## Concrete instances, used by witnesses and counterexamples -/

/-- A concrete rational interpretation of the ambient math library. -/
def M0 : MathFns :=
  { cos := fun _ => 1, sin := fun _ => 0, sqrt := fun q => q,
    acos := fun _ => 0, pi := 3 }

/-- A concrete `Math.random()` stream that always returns `0`. -/
def rho0 : ℕ → ℚ := fun _ => 0

/-- A concrete `Math.random()` stream that always returns `1/2`. -/
def rhoH : ℕ → ℚ := fun _ => 1 / 2

/-- Landmarks of a qualifying hand: thumb and index tips coincide and the
middle, ring and pinky tips sit on the wrist while their MCP joints are at
distance 1 from it. -/
def lmQ : List Landmark :=
  [⟨0, 0⟩, ⟨0, 0⟩, ⟨0, 0⟩, ⟨0, 0⟩, ⟨0, 0⟩, ⟨0, 0⟩, ⟨0, 0⟩, ⟨0, 0⟩, ⟨0, 0⟩,
   ⟨1, 0⟩, ⟨0, 0⟩, ⟨0, 0⟩, ⟨0, 0⟩, ⟨1, 0⟩, ⟨0, 0⟩, ⟨0, 0⟩, ⟨0, 0⟩, ⟨1, 0⟩,
   ⟨0, 0⟩, ⟨0, 0⟩, ⟨0, 0⟩]

/-- Landmarks of a detected but non-qualifying hand: as `lmQ` except the
index tip (landmark 8) is far from the thumb tip. -/
def lmN : List Landmark :=
  [⟨0, 0⟩, ⟨0, 0⟩, ⟨0, 0⟩, ⟨0, 0⟩, ⟨0, 0⟩, ⟨0, 0⟩, ⟨0, 0⟩, ⟨0, 0⟩, ⟨1, 0⟩,
   ⟨1, 0⟩, ⟨0, 0⟩, ⟨0, 0⟩, ⟨0, 0⟩, ⟨1, 0⟩, ⟨0, 0⟩, ⟨0, 0⟩, ⟨0, 0⟩, ⟨1, 0⟩,
   ⟨0, 0⟩, ⟨0, 0⟩, ⟨0, 0⟩]

/-- A qualifying inference result (hand detected, pinch condition holds). -/
def qFrame : RecognizerResult := { gestures := ["None"], landmarks := [lmQ] }

/-- A non-qualifying inference result with a hand still detected. -/
def nFrame : RecognizerResult := { gestures := ["None"], landmarks := [lmN] }

/-- An inference result with no hand detected. -/
def noHandFrame : RecognizerResult := { gestures := [], landmarks := [] }

/-- The signal published for `qFrame` once the debounce has latched. -/
def pinchSig : HandState :=
  { x := 1, y := 1, pinchX := 1, pinchY := 1,
    isPinching := true, gesture := "Pinch", active := true }

/-- A single-photo list for Mode Controller witnesses. -/
def photos1 : List PhotoData :=
  [{ id := "1", url := "u", position := ⟨0, 0, 0⟩, rotation := ⟨0, 0, 0⟩ }]

/-! ## Helper lemmas -/

/-- The generator loop writes one point per index. -/
theorem shapePointsFrom_length (M : MathFns) (ρ : ℕ → ℚ) (count : ℕ)
    (shape : FeatureShape) (spread : ℚ) (is : List ℕ) (n : ℕ) :
    (shapePointsFrom M ρ count shape spread is n).1.length = is.length := by
  induction is generalizing n with
  | nil => rfl
  | cons i is ih => simp [shapePointsFrom, ih]

/-- Every point of the generator loop output comes from `shapePoint` at
one of the requested indices (at some random cursor). -/
theorem shapePointsFrom_mem {M : MathFns} {ρ : ℕ → ℚ} {count : ℕ}
    {shape : FeatureShape} {spread : ℚ} {is : List ℕ} {n : ℕ} {p : Point}
    (hp : p ∈ (shapePointsFrom M ρ count shape spread is n).1) :
    ∃ i ∈ is, ∃ m, p = (shapePoint M ρ count shape spread i m).1 := by
  induction is generalizing n with
  | nil => simp [shapePointsFrom] at hp
  | cons i is ih =>
    simp only [shapePointsFrom, List.mem_cons] at hp
    rcases hp with h | h
    · exact ⟨i, List.mem_cons_self i is, n, h⟩
    · obtain ⟨j, hj, m, hm⟩ := ih h
      exact ⟨j, List.mem_cons_of_mem i hj, m, hm⟩

/-! ## Claim theorems -/

/-- C2 counterexample: the claim says disabling resets the pinch-debounce
counter to 0, but the disabled branch of the effect does not touch the
`pinchFrameCount` ref; from a latched counter of 7 it stays 7. -/
theorem C2_counterexample : ¬ (disabledBranch 7).1 = 0 := by decide

/-- C2 (amended): disabling the gesture subsystem stops inference and
force-resets the published `HandSignal` to the neutral value exactly once,
regardless of prior state, but it does not reset the pinch-debounce
counter, which keeps its prior value. -/
theorem C2_disable_amended (c : ℤ) :
    (disabledBranch c).2 = [neutralHandState] ∧
    (disabledBranch c).2.length = 1 ∧
    (disabledBranch c).1 = c :=
  ⟨rfl, rfl, rfl⟩

/-- C4 counterexample: the claim says any `count ≤ 0` is rejected at the
call site, but `count = 0` is accepted and returns an empty result. -/
theorem C4_counterexample :
    (0 : ℤ) ≤ 0 ∧ getShapePositions M0 rho0 0 .TREE 1 0 = .ok [] :=
  ⟨le_refl 0, rfl⟩

/-- C4 (amended): a negative `count` does fail fast (the typed-array
allocation `new Float32Array(count * 3)` throws a `RangeError`), but
`count = 0` is not rejected: the generator returns an empty array. -/
theorem C4_fail_fast_amended (M : MathFns) (ρ : ℕ → ℚ) (count : ℤ)
    (shape : FeatureShape) (spread : ℚ) (n : ℕ) :
    (count < 0 →
       getShapePositions M ρ count shape spread n =
         .error "RangeError: invalid typed array length") ∧
    (count = 0 → getShapePositions M ρ count shape spread n = .ok []) := by
  constructor
  · intro h
    simp [getShapePositions, h]
  · intro h
    subst h
    simp [getShapePositions, shapePointsFrom]

/-- Witness for C4: at `count = -1` the call errors, and at `count = 0` it
returns the empty array. -/
theorem C4_fail_fast_amended_witness :
    getShapePositions M0 rho0 (-1) .TREE 1 0 =
      .error "RangeError: invalid typed array length" ∧
    getShapePositions M0 rho0 0 .TREE 1 0 = .ok [] :=
  ⟨(C4_fail_fast_amended M0 rho0 (-1) .TREE 1 0).1 (by norm_num),
   (C4_fail_fast_amended M0 rho0 0 .TREE 1 0).2 rfl⟩

/-- C6 counterexample: the claim says `getPhotoSlotsForShape` is
deterministic for every shape, but for non-TREE shapes it draws random
orbit positions; two calls seeing different `Math.random()` values return
different anchor points. -/
theorem C6_counterexample :
    (getPhotoSlotsForShape M0 rho0 1 .SANTA 0).1 ≠
      (getPhotoSlotsForShape M0 rhoH 1 .SANTA 0).1 := by
  simp only [getPhotoSlotsForShape]
  rw [if_neg (by decide), if_neg (by decide)]
  norm_num [orbitSlots, getRandomPosition, rho0, rhoH, Point.mk.injEq]

/-- C6 (amended): the companion slot operation is deterministic for the
TREE shape, whose branch consumes no randomness: its anchor points do not
depend on the random stream or cursor. For the other shapes the fallback
is a stochastic orbit placement. -/
theorem C6_slots_deterministic_tree (M : MathFns) (count : ℕ)
    (ρ1 ρ2 : ℕ → ℚ) (n1 n2 : ℕ) :
    (getPhotoSlotsForShape M ρ1 count .TREE n1).1 =
      (getPhotoSlotsForShape M ρ2 count .TREE n2).1 := by
  simp [getPhotoSlotsForShape]

/-- C7: for every `count > 0`, every shape and every `spread ≥ 0`,
`getShapePositions` succeeds and returns exactly `count` points; every
coordinate is a well-defined rational value. -/
theorem C7_generate_count (M : MathFns) (ρ : ℕ → ℚ) (count : ℤ)
    (shape : FeatureShape) (spread : ℚ) (n : ℕ)
    (hc : 0 < count) (hs : 0 ≤ spread) :
    ∃ l, getShapePositions M ρ count shape spread n = .ok l ∧
      (l.length : ℤ) = count := by
  unfold getShapePositions
  rw [if_neg (by omega)]
  refine ⟨_, rfl, ?_⟩
  rw [shapePointsFrom_length, List.length_range]
  omega

/-- Witness for C7 at `count = 3`, shape ELK, `spread = 1`. -/
theorem C7_generate_count_witness :
    (0 : ℤ) < 3 ∧ (0 : ℚ) ≤ 1 ∧
    ∃ l, getShapePositions M0 rho0 3 .ELK 1 0 = .ok l ∧ (l.length : ℤ) = 3 :=
  ⟨by norm_num, by norm_num, C7_generate_count M0 rho0 3 .ELK 1 0 (by norm_num) (by norm_num)⟩

/-- C10: on an inference tick whose result has empty gesture or landmark
lists, `predict` resets the debounce counter to 0 and publishes the fully
neutral signal; when the inference call throws, nothing is published and
the counter is unchanged, so the previous values remain in force. -/
theorem C10_no_detection_reset (M : MathFns) (c : ℤ) (res : RecognizerResult) :
    (¬ handDetected res →
       predictStep M c (.ok res) = (0, some neutralHandState)) ∧
    predictStep M c .err = (c, none) := by
  constructor
  · intro h
    simp [predictStep, h]
  · rfl

/-- Witness for C10 at a frame with no detections and counter 3. -/
theorem C10_no_detection_reset_witness :
    ¬ handDetected noHandFrame ∧
    predictStep M0 3 (.ok noHandFrame) = (0, some neutralHandState) ∧
    predictStep M0 3 .err = (3, none) :=
  ⟨by decide, (C10_no_detection_reset M0 3 noHandFrame).1 (by decide),
   (C10_no_detection_reset M0 3 noHandFrame).2⟩

/-- C9: every signal published by the gesture signal processor, whether by
an inference tick or by the disable reset, satisfies the invariant
`isPinching = true` implies `gesture = "Pinch"`. -/
theorem C9_pinch_invariant (M : MathFns) (c : ℤ) (o : InferOutcome) :
    (∀ (c2 : ℤ) (s : HandState), predictStep M c o = (c2, some s) →
       s.isPinching = true → s.gesture = "Pinch") ∧
    (∀ s ∈ (disabledBranch c).2, s.isPinching = true → s.gesture = "Pinch") := by
  constructor
  · intro c2 s h hp
    match o with
    | .err => simp [predictStep] at h
    | .ok res =>
      by_cases hh : handDetected res
      · simp only [predictStep, if_pos hh] at h
        split_ifs at h <;>
          (injection h with h1 h2; injection h2 with h2;
           rw [← h2] at hp ⊢) <;>
          first
          | rfl
          | simp at hp
      · simp only [predictStep, if_neg hh] at h
        injection h with h1 h2
        injection h2 with h2
        rw [← h2] at hp
        simp [neutralHandState] at hp
  · intro s hs hp
    simp only [disabledBranch, List.mem_singleton] at hs
    rw [hs] at hp
    simp [neutralHandState] at hp

/-- Witness for C9: from counter 4 a qualifying frame latches and the
published signal carries `gesture = "Pinch"`. -/
theorem C9_pinch_invariant_witness :
    predictStep M0 4 (.ok qFrame) = (7, some pinchSig) ∧
    pinchSig.gesture = "Pinch" := by
  have h : predictStep M0 4 (.ok qFrame) = (7, some pinchSig) := by
    norm_num [predictStep, handDetected, qFrame, pinchFrameCondition, lmQ,
      getDistance, M0, List.getD, PINCH_THRESHOLD_FRAMES, pinchSig,
      HandState.mk.injEq]
  exact ⟨h, (C9_pinch_invariant M0 4 (.ok qFrame)).1 7 pinchSig h rfl⟩

/-- C3: the Mode Controller transition of `handleHandUpdate`, for signals
satisfying the processor invariant (`isPinching` implies the gesture label
is `"Pinch"`): a closed fist enters FEATURE and clears the focus target
(a no-op from FEATURE with no target), an open palm always enters SCATTER
and clears the focus target, a pinch outside FOCUS with a non-empty photo
set enters FOCUS and latches the id of one of the supplied photos, and a
pinch while already in FOCUS changes nothing. -/
theorem C3_mode_controller (photos : List PhotoData) (rand : ℚ)
    (st : ModeState) (sig : HandState)
    (h0 : 0 ≤ rand) (h1 : rand < 1)
    (hinv : sig.isPinching = true → sig.gesture = "Pinch") :
    (sig.gesture = "Closed_Fist" →
       handleHandUpdate true photos rand st sig = ⟨AppMode.FEATURE, none⟩) ∧
    (sig.gesture = "Closed_Fist" → st = ⟨AppMode.FEATURE, none⟩ →
       handleHandUpdate true photos rand st sig = st) ∧
    (sig.gesture = "Open_Palm" →
       handleHandUpdate true photos rand st sig = ⟨AppMode.SCATTER, none⟩) ∧
    (sig.isPinching = true → st.mode ≠ AppMode.FOCUS → photos ≠ [] →
       (handleHandUpdate true photos rand st sig).mode = AppMode.FOCUS ∧
       ∃ p ∈ photos,
         (handleHandUpdate true photos rand st sig).focusId = some p.id) ∧
    (sig.isPinching = true → st.mode = AppMode.FOCUS →
       handleHandUpdate true photos rand st sig = st) := by
  have hfist : sig.gesture = "Closed_Fist" →
      handleHandUpdate true photos rand st sig = ⟨AppMode.FEATURE, none⟩ := by
    intro hg
    have hp : sig.isPinching = false := by
      by_contra hcont
      rw [Bool.not_eq_false] at hcont
      rw [hinv hcont] at hg
      exact absurd hg (by decide)
    simp only [handleHandUpdate, Bool.not_true, Bool.false_eq_true, if_false,
      hg, if_true, hp]
    cases h : st.mode <;> simp
  refine ⟨hfist, ?_, ?_, ?_, ?_⟩
  · intro hg hst
    rw [hfist hg, hst]
  · intro hg
    have hp : sig.isPinching = false := by
      by_contra hcont
      rw [Bool.not_eq_false] at hcont
      rw [hinv hcont] at hg
      exact absurd hg (by decide)
    have hne : ¬ sig.gesture = "Closed_Fist" := by
      rw [hg]; decide
    simp only [handleHandUpdate, Bool.not_true, Bool.false_eq_true, if_false,
      hg, hne, if_true, hp]
    cases h : st.mode <;> simp
  · intro hp hm hne
    have hg := hinv hp
    have hgf : ¬ sig.gesture = "Closed_Fist" := by rw [hg]; decide
    have hgp : ¬ sig.gesture = "Open_Palm" := by rw [hg]; decide
    have hlen : 0 < photos.length := List.length_pos.mpr hne
    have hguard : st.mode ≠ AppMode.FOCUS ∧ 0 < photos.length := ⟨hm, hlen⟩
    have hidx : (⌊rand * (photos.length : ℚ)⌋).toNat < photos.length := by
      have hf1 : ⌊rand * (photos.length : ℚ)⌋ < (photos.length : ℤ) := by
        apply Int.floor_lt.mpr
        push_cast
        exact mul_lt_of_lt_one_left (by exact_mod_cast hlen) h1
      have hf0 : 0 ≤ ⌊rand * (photos.length : ℚ)⌋ :=
        Int.floor_nonneg.mpr (by positivity)
      omega
    simp only [handleHandUpdate, Bool.not_true, Bool.false_eq_true, if_false,
      hgf, hgp, hp, if_true, if_pos hguard]
    constructor
    · trivial
    · refine ⟨photos[(⌊rand * (photos.length : ℚ)⌋).toNat], List.getElem_mem hidx, ?_⟩
      simp [List.getElem?_eq_getElem hidx]
  · intro hp hm
    have hg := hinv hp
    have hgf : ¬ sig.gesture = "Closed_Fist" := by rw [hg]; decide
    have hgp : ¬ sig.gesture = "Open_Palm" := by rw [hg]; decide
    have hguard : ¬ (st.mode ≠ AppMode.FOCUS ∧ 0 < photos.length) := by
      intro hcont
      exact hcont.1 hm
    simp only [handleHandUpdate, Bool.not_true, Bool.false_eq_true, if_false,
      hgf, hgp, hp, if_true, if_neg hguard]

/-- Witness for C3: a pinch from FEATURE with one photo enters FOCUS and
latches the id of that photo. -/
theorem C3_mode_controller_witness :
    (handleHandUpdate true photos1 0 ⟨AppMode.FEATURE, none⟩ pinchSig).mode =
      AppMode.FOCUS ∧
    ∃ p ∈ photos1,
      (handleHandUpdate true photos1 0 ⟨AppMode.FEATURE, none⟩ pinchSig).focusId =
        some p.id :=
  (C3_mode_controller photos1 0 ⟨AppMode.FEATURE, none⟩ pinchSig (le_refl 0)
    (by norm_num) (fun _ => rfl)).2.2.2.1 rfl (by decide) (by decide)

/-- The displacement from the target contracts by the factor `1 - f` on
each smoothing tick. -/
theorem lerpIter_sub (f t x : ℚ) (k : ℕ) :
    lerpIter f t x k - t = (x - t) * (1 - f) ^ k := by
  induction k with
  | zero => simp [lerpIter]
  | succ k ih =>
    simp only [lerpIter, lerpStep]
    rw [pow_succ]
    linear_combination (1 - f) * ih

/-- C8: for a fixed target and a lerp factor in `(0,1)`, the per-axis
smoothing step strictly decreases the distance to the target whenever the
position differs from it, never overshoots on either side, and converges
to the target. -/
theorem C8_lerp_convergence (f t x : ℚ) (h0 : 0 < f) (h1 : f < 1) :
    (∀ k, lerpIter f t x k ≠ t →
       |lerpIter f t x (k + 1) - t| < |lerpIter f t x k - t|) ∧
    (∀ k, (x ≤ t → lerpIter f t x k ≤ t) ∧ (t ≤ x → t ≤ lerpIter f t x k)) ∧
    (∀ ε : ℚ, 0 < ε → ∃ N, ∀ k, N ≤ k → |lerpIter f t x k - t| < ε) := by
  have hsub := lerpIter_sub f t x
  have h1f0 : (0 : ℚ) < 1 - f := by linarith
  have h1f1 : (1 : ℚ) - f < 1 := by linarith
  refine ⟨?_, ?_, ?_⟩
  · intro k hk
    have habs : 0 < |lerpIter f t x k - t| := abs_pos.mpr (sub_ne_zero.mpr hk)
    have hfac : lerpIter f t x (k + 1) - t = (lerpIter f t x k - t) * (1 - f) := by
      rw [hsub, hsub, pow_succ]
      ring
    rw [hfac, abs_mul, abs_of_pos h1f0]
    calc |lerpIter f t x k - t| * (1 - f)
        < |lerpIter f t x k - t| * 1 := mul_lt_mul_of_pos_left h1f1 habs
      _ = |lerpIter f t x k - t| := mul_one _
  · intro k
    have hpow : (0 : ℚ) < (1 - f) ^ k := pow_pos h1f0 k
    constructor
    · intro hxt
      have hle : lerpIter f t x k - t ≤ 0 := by
        rw [hsub]
        exact mul_nonpos_of_nonpos_of_nonneg (by linarith) hpow.le
      linarith
    · intro htx
      have hge : 0 ≤ lerpIter f t x k - t := by
        rw [hsub]
        exact mul_nonneg (by linarith) hpow.le
      linarith
  · intro ε hε
    by_cases hxt : x = t
    · refine ⟨0, fun k _ => ?_⟩
      rw [hsub, hxt]
      simpa using hε
    · have hd : 0 < |x - t| := abs_pos.mpr (sub_ne_zero.mpr hxt)
      obtain ⟨N, hN⟩ := exists_pow_lt_of_lt_one (div_pos hε hd) h1f1
      refine ⟨N, fun k hk => ?_⟩
      rw [hsub, abs_mul, abs_pow, abs_of_pos h1f0]
      have hmono : (1 - f) ^ k ≤ (1 - f) ^ N :=
        pow_le_pow_of_le_one h1f0.le (by linarith) hk
      calc |x - t| * (1 - f) ^ k
          ≤ |x - t| * (1 - f) ^ N := mul_le_mul_of_nonneg_left hmono (abs_nonneg _)
        _ < |x - t| * (ε / |x - t|) := mul_lt_mul_of_pos_left hN hd
        _ = ε := by field_simp

/-- Witness for C8 at `f = 1/2`, target `1`, start `0`. -/
theorem C8_lerp_convergence_witness :
    (0 : ℚ) < 1 / 2 ∧ (1 / 2 : ℚ) < 1 ∧
    ((∀ k, lerpIter (1 / 2) 1 0 k ≠ 1 →
        |lerpIter (1 / 2) 1 0 (k + 1) - 1| < |lerpIter (1 / 2) 1 0 k - 1|) ∧
     (∀ k, ((0 : ℚ) ≤ 1 → lerpIter (1 / 2) 1 0 k ≤ 1) ∧
        ((1 : ℚ) ≤ 0 → 1 ≤ lerpIter (1 / 2) 1 0 k)) ∧
     (∀ ε : ℚ, 0 < ε → ∃ N, ∀ k, N ≤ k → |lerpIter (1 / 2) 1 0 k - 1| < ε)) :=
  ⟨by norm_num, by norm_num,
   C8_lerp_convergence (1 / 2) 1 0 (by norm_num) (by norm_num)⟩

/-- Counter and published pinch flag after a qualifying frame. -/
theorem predictStep_qual (M : MathFns) (c : ℤ) (res : RecognizerResult)
    (hh : handDetected res) (hq : pinchFrameCondition M res = true) :
    (predictStep M c (.ok res)).1 =
      (if PINCH_THRESHOLD_FRAMES ≤ c + 1 then PINCH_THRESHOLD_FRAMES + 2
       else c + 1) ∧
    ∃ s, (predictStep M c (.ok res)).2 = some s ∧
      (s.isPinching = true ↔ PINCH_THRESHOLD_FRAMES ≤ c + 1) := by
  simp only [predictStep, if_pos hh, hq, if_true]
  split_ifs with h5
  · exact ⟨rfl, _, rfl, by simp [h5]⟩
  · exact ⟨rfl, _, rfl, by simp [h5]⟩

/-- Counter and published pinch flag after a non-qualifying frame with a
hand still detected. -/
theorem predictStep_nonqual (M : MathFns) (c : ℤ) (res : RecognizerResult)
    (hh : handDetected res) (hq : pinchFrameCondition M res = false) :
    (predictStep M c (.ok res)).1 =
      (if PINCH_THRESHOLD_FRAMES ≤ max 0 (c - 2) then PINCH_THRESHOLD_FRAMES + 2
       else max 0 (c - 2)) ∧
    ∃ s, (predictStep M c (.ok res)).2 = some s ∧
      (s.isPinching = true ↔ PINCH_THRESHOLD_FRAMES ≤ max 0 (c - 2)) := by
  simp only [predictStep, if_pos hh, hq, Bool.false_eq_true, if_false]
  split_ifs with h5
  · exact ⟨rfl, _, rfl, by simp [h5]⟩
  · exact ⟨rfl, _, rfl, by simp [h5]⟩

/-- The state machine satisfies a run-decomposition law over appended
frame lists. -/
theorem predictRun_append (M : MathFns) (c : ℤ) (l1 l2 : List InferOutcome) :
    predictRun M c (l1 ++ l2) =
      ((predictRun M (predictRun M c l1).1 l2).1,
       (predictRun M c l1).2 ++ (predictRun M (predictRun M c l1).1 l2).2) := by
  induction l1 generalizing c with
  | nil => simp [predictRun]
  | cons o os ih =>
    simp only [List.cons_append, predictRun, List.append_eq]
    rw [ih]
    cases (predictStep M c o).2 <;> simp

/-- Counter after a run of qualifying frames: it counts up from `c` and
clamps to 7 as soon as the threshold is passed. -/
theorem predictRun_counter_qual (M : MathFns) :
    ∀ (frames : List RecognizerResult), (∀ r ∈ frames, qualifyingFrame M r) →
    ∀ c : ℤ, 0 ≤ c →
      (predictRun M c (frames.map .ok)).1 =
        if 5 ≤ c + frames.length ∧ 1 ≤ frames.length then 7
        else c + frames.length := by
  intro frames
  induction frames with
  | nil =>
    intro _ c hc
    simp [predictRun]
  | cons r rs ih =>
    intro hq c hc
    have hr := hq r (List.mem_cons_self r rs)
    have hstep := (predictStep_qual M c r hr.1 hr.2).1
    have hq' : ∀ a ∈ rs, qualifyingFrame M a :=
      fun a ha => hq a (List.mem_cons_of_mem _ ha)
    have hc' : (0 : ℤ) ≤ (predictStep M c (.ok r)).1 := by
      rw [hstep]
      simp only [PINCH_THRESHOLD_FRAMES]
      split_ifs <;> omega
    simp only [List.map_cons, predictRun]
    rw [ih hq' _ hc', hstep]
    simp only [PINCH_THRESHOLD_FRAMES, List.length_cons]
    split_ifs <;> push_cast <;> omega

/-- C1 (amended): the counter starts at 0, gains 1 per qualifying frame,
loses 2 (floored at 0) per non-qualifying hand frame, latches
`isPinching` at threshold 5 and clamps to 7. Every run of at least 5
consecutive qualifying frames latches `isPinching = true` with the counter
at 7. After a latch, however, the counter never decays to 0 through
non-qualifying frames with a hand still detected: from the clamp 7 the
decrement lands on 5, which meets the threshold and immediately re-latches
to 7 with `isPinching = true`. `isPinching` returns to false only when the
counter is reset, by a frame with no detected hand, which zeroes it in a
single frame and publishes the neutral signal. -/
theorem C1_pinch_debounce_amended (M : MathFns) :
    (∀ (frames : List RecognizerResult) (c : ℤ), 0 ≤ c →
       5 ≤ frames.length → (∀ r ∈ frames, qualifyingFrame M r) →
       (predictRun M c (frames.map .ok)).1 = 7 ∧
       ∃ pre s, (predictRun M c (frames.map .ok)).2 = pre ++ [s] ∧
         s.isPinching = true) ∧
    (∀ (res : RecognizerResult) (c : ℤ), handDetected res → 7 ≤ c →
       (predictStep M c (.ok res)).1 = 7 ∧
       ∃ s, (predictStep M c (.ok res)).2 = some s ∧ s.isPinching = true) ∧
    (∀ (o : InferOutcome) (s : HandState),
       (predictStep M 7 o).2 = some s → s.isPinching = false →
       (predictStep M 7 o).1 = 0 ∧ s = neutralHandState) := by
  have hlatch : ∀ (res : RecognizerResult) (c : ℤ), handDetected res → 7 ≤ c →
      (predictStep M c (.ok res)).1 = 7 ∧
      ∃ s, (predictStep M c (.ok res)).2 = some s ∧ s.isPinching = true := by
    intro res c hh hc
    cases hq : pinchFrameCondition M res with
    | true =>
      obtain ⟨h1, s, h2, h3⟩ := predictStep_qual M c res hh hq
      refine ⟨?_, s, h2, h3.mpr ?_⟩
      · rw [h1]
        simp only [PINCH_THRESHOLD_FRAMES]
        split_ifs <;> omega
      · simp only [PINCH_THRESHOLD_FRAMES]
        omega
    | false =>
      obtain ⟨h1, s, h2, h3⟩ := predictStep_nonqual M c res hh hq
      refine ⟨?_, s, h2, h3.mpr ?_⟩
      · rw [h1]
        simp only [PINCH_THRESHOLD_FRAMES]
        split_ifs <;> omega
      · simp only [PINCH_THRESHOLD_FRAMES]
        omega
  refine ⟨?_, hlatch, ?_⟩
  · intro frames c hc hlen hq
    obtain hnil | ⟨init, last, hcat⟩ := frames.eq_nil_or_concat
    · rw [hnil] at hlen
      simp at hlen
    rw [List.concat_eq_append] at hcat
    subst hcat
    have hinit : ∀ r ∈ init, qualifyingFrame M r :=
      fun r hr => hq r (List.mem_append_left _ hr)
    have hlast := hq last (List.mem_append_right _ (List.mem_singleton_self last))
    have hinitlen : 4 ≤ init.length := by
      rw [List.length_append, List.length_singleton] at hlen
      omega
    have hc1 := predictRun_counter_qual M init hinit c hc
    set c1 := (predictRun M c (init.map .ok)).1 with hc1def
    have hc1ge : 4 ≤ c1 := by
      rw [hc1]
      split_ifs <;> omega
    obtain ⟨hs1, s, hs2, hs3⟩ := predictStep_qual M c1 last hlast.1 hlast.2
    have hpin : s.isPinching = true := by
      apply hs3.mpr
      simp only [PINCH_THRESHOLD_FRAMES]
      omega
    have hmap : (init ++ [last]).map InferOutcome.ok =
        init.map .ok ++ [InferOutcome.ok last] := by
      simp
    rw [hmap, predictRun_append]
    constructor
    · simp only [predictRun, ← hc1def]
      rw [hs1]
      simp only [PINCH_THRESHOLD_FRAMES]
      split_ifs <;> omega
    · refine ⟨(predictRun M c (init.map .ok)).2, s, ?_, hpin⟩
      simp only [predictRun, ← hc1def, hs2]
  · intro o s h hp
    match o with
    | .err => simp [predictStep] at h
    | .ok res =>
      by_cases hh : handDetected res
      · obtain ⟨h1, s2, h2, h3⟩ := hlatch res 7 hh (le_refl 7)
        rw [h2] at h
        injection h with h4
        rw [h4] at h3
        rw [h3] at hp
        exact absurd hp (by decide)
      · have hstep : predictStep M 7 (.ok res) = (0, some neutralHandState) := by
          simp [predictStep, hh]
        rw [hstep] at h
        injection h with h4
        exact ⟨by rw [hstep], h4.symm⟩

/-- Witness for C1: five qualifying frames from counter 0 latch the pinch
and clamp the counter to 7. -/
theorem C1_pinch_debounce_amended_witness :
    (predictRun M0 0 ((List.replicate 5 qFrame).map .ok)).1 = 7 ∧
    ∃ pre s, (predictRun M0 0 ((List.replicate 5 qFrame).map .ok)).2 = pre ++ [s] ∧
      s.isPinching = true := by
  have hq : ∀ r ∈ List.replicate 5 qFrame, qualifyingFrame M0 r := by
    intro r hr
    rw [List.eq_of_mem_replicate hr]
    refine ⟨by decide, ?_⟩
    norm_num [pinchFrameCondition, qFrame, lmQ, getDistance, M0, List.getD]
  exact (C1_pinch_debounce_amended M0).1 (List.replicate 5 qFrame) 0
    (by norm_num) (by simp) hq

/-- C1 counterexample: the claim says that after a bare-minimum latch the
counter decays to 0 (unlatching `isPinching`) once at least 3
non-qualifying hand frames arrive. In fact, after 5 qualifying frames and
then 6 consecutive non-qualifying frames with a hand still detected, the
counter is still 7 (not 0), and a further non-qualifying hand frame still
publishes `isPinching = true`: the decrement from the clamp re-latches. -/
theorem C1_counterexample :
    (predictRun M0 0
       (List.replicate 5 (.ok qFrame) ++ List.replicate 6 (.ok nFrame))).1 = 7 ∧
    ¬ (predictRun M0 0
       (List.replicate 5 (.ok qFrame) ++ List.replicate 6 (.ok nFrame))).1 = 0 ∧
    ∃ s, (predictStep M0 7 (.ok nFrame)).2 = some s ∧ s.isPinching = true := by
  have hqf : qualifyingFrame M0 qFrame := by
    refine ⟨by decide, ?_⟩
    norm_num [pinchFrameCondition, qFrame, lmQ, getDistance, M0, List.getD]
  have hnf1 : handDetected nFrame := by decide
  have hnf2 : pinchFrameCondition M0 nFrame = false := by
    norm_num [pinchFrameCondition, nFrame, lmN, getDistance, M0, List.getD]
  have hrep : List.replicate 5 (InferOutcome.ok qFrame) =
      (List.replicate 5 qFrame).map .ok := by simp
  have h5 : (predictRun M0 0 ((List.replicate 5 qFrame).map .ok)).1 = 7 := by
    rw [predictRun_counter_qual M0 _
      (fun r hr => by rw [List.eq_of_mem_replicate hr]; exact hqf) 0 (by norm_num)]
    simp
  have hstep7 := predictStep_nonqual M0 7 nFrame hnf1 hnf2
  have hstep7c : (predictStep M0 7 (.ok nFrame)).1 = 7 := by
    rw [hstep7.1]
    decide
  have hn : ∀ k, (predictRun M0 7 (List.replicate k (.ok nFrame))).1 = 7 := by
    intro k
    induction k with
    | zero => rfl
    | succ k ih =>
      simp only [List.replicate_succ, predictRun]
      rw [hstep7c]
      exact ih
  have hmain : (predictRun M0 0
      (List.replicate 5 (.ok qFrame) ++ List.replicate 6 (.ok nFrame))).1 = 7 := by
    rw [predictRun_append]
    dsimp only
    rw [hrep, h5]
    exact hn 6
  refine ⟨hmain, by rw [hmain]; norm_num, ?_⟩
  obtain ⟨h1, s, h2, h3⟩ := hstep7
  exact ⟨s, h2, h3.mpr (by decide)⟩

/-- The y coordinate of a TREE point is the skeleton height `-6 + 12 t`
plus a jitter of at most half the thickness `spread * (2 (1 - t) + 0.5)`. -/
theorem shapePoint_tree_y (M : MathFns) (ρ : ℕ → ℚ) (count : ℕ) (spread : ℚ)
    (i n : ℕ) (hρ : ∀ k, 0 ≤ ρ k ∧ ρ k < 1) (hc : 0 < count) (hi : i < count)
    (hs : 0 ≤ spread) :
    -6 - 5 / 4 * spread ≤ ((shapePoint M ρ count .TREE spread i n).1).y ∧
    ((shapePoint M ρ count .TREE spread i n).1).y < 6 + 5 / 4 * spread := by
  obtain ⟨hb0, hb1⟩ := hρ (n + 1)
  have hcq : (0 : ℚ) < (count : ℚ) := by exact_mod_cast hc
  have ht0 : (0 : ℚ) ≤ (i : ℚ) / (count : ℚ) := by positivity
  have ht1 : (i : ℚ) / (count : ℚ) < 1 := by
    rw [div_lt_one hcq]
    exact_mod_cast hi
  simp only [shapePoint]
  set t := (i : ℚ) / (count : ℚ) with htdef
  set b := ρ (n + 1) with hbdef
  have hth0 : 0 ≤ spread * (2.0 * (1 - t) + 0.5) :=
    mul_nonneg hs (by linarith)
  have hth1 : spread * (2.0 * (1 - t) + 0.5) ≤ 5 / 2 * spread := by
    nlinarith [mul_nonneg hs ht0]
  have hoff_lb : -(1 / 2) * (spread * (2.0 * (1 - t) + 0.5)) ≤
      (b - 0.5) * (spread * (2.0 * (1 - t) + 0.5)) :=
    mul_le_mul_of_nonneg_right (by linarith) hth0
  have hoff_ub : (b - 0.5) * (spread * (2.0 * (1 - t) + 0.5)) ≤
      (1 / 2) * (spread * (2.0 * (1 - t) + 0.5)) :=
    mul_le_mul_of_nonneg_right (by linarith) hth0
  constructor
  · linarith
  · linarith

/-- C5 counterexample: the claim says every TREE point has its y
coordinate inside the skeleton extent `[-6, 6]` for every `spread ≥ 0`,
but the height jitter `hOffset` escapes it: with `spread = 1`, `count = 1`
and a random stream that always returns 0 (a legal `Math.random` value),
the generated point has `y = -29/4 < -6`. -/
theorem C5_counterexample :
    getShapePositions M0 rho0 1 .TREE 1 0 = .ok [⟨15 / 4, -29 / 4, 0⟩] ∧
    ∃ p ∈ [(⟨15 / 4, -29 / 4, 0⟩ : Point)], p.y < -6 := by
  constructor
  · norm_num [getShapePositions, shapePointsFrom, shapePoint, rho0, M0,
      List.range_succ, List.range_zero, max_def, Point.mk.injEq]
  · exact ⟨⟨15 / 4, -29 / 4, 0⟩, by simp, by norm_num⟩

/-- C5 (amended): for every `count > 0` and `spread ≥ 0`, every TREE point
has its y coordinate within the skeleton extent widened by the maximal
half-thickness of the jitter: `-6 - (5/4) spread ≤ y < 6 + (5/4) spread`.
For `spread = 0` this is exactly the declared extent `[-6, 6)`. -/
theorem C5_tree_height_amended (M : MathFns) (ρ : ℕ → ℚ) (count : ℤ)
    (spread : ℚ) (n : ℕ) (l : List Point)
    (hρ : ∀ k, 0 ≤ ρ k ∧ ρ k < 1) (hc : 0 < count) (hs : 0 ≤ spread)
    (hl : getShapePositions M ρ count .TREE spread n = .ok l) :
    ∀ p ∈ l, -6 - 5 / 4 * spread ≤ p.y ∧ p.y < 6 + 5 / 4 * spread := by
  intro p hp
  have hnn : ¬ count < 0 := by omega
  rw [getShapePositions, if_neg hnn] at hl
  injection hl with hl
  rw [← hl] at hp
  obtain ⟨i, hi, m, hpm⟩ := shapePointsFrom_mem hp
  rw [List.mem_range] at hi
  rw [hpm]
  exact shapePoint_tree_y M ρ count.toNat spread i m hρ (by omega) hi hs

/-- Witness for C5 at `count = 1`, `spread = 1`, the all-zero stream. -/
theorem C5_tree_height_amended_witness :
    (∀ k, 0 ≤ rho0 k ∧ rho0 k < 1) ∧ (0 : ℤ) < 1 ∧ (0 : ℚ) ≤ 1 ∧
    ∀ p ∈ [(⟨15 / 4, -29 / 4, 0⟩ : Point)],
      -6 - 5 / 4 * (1 : ℚ) ≤ p.y ∧ p.y < 6 + 5 / 4 * (1 : ℚ) := by
  have hρ : ∀ k, 0 ≤ rho0 k ∧ rho0 k < 1 := fun k => by norm_num [rho0]
  have hok : getShapePositions M0 rho0 1 .TREE 1 0 = .ok [⟨15 / 4, -29 / 4, 0⟩] := by
    norm_num [getShapePositions, shapePointsFrom, shapePoint, rho0, M0,
      List.range_succ, List.range_zero, max_def, Point.mk.injEq]
  exact ⟨hρ, by norm_num, by norm_num,
    C5_tree_height_amended M0 rho0 1 1 0 _ hρ (by norm_num) (by norm_num) hok⟩

end EGC
